import Mathlib

/-!
Verification of the decorator examples (`07_decorators/input_validation.py`,
`07_decorators/timing.py`) and the Fibonacci generator comparison
(`03_generators/main.py`).

Modelling choices for the shallow embedding:

* A wrapped Python callable takes a list of positional arguments and an
  association list of keyword arguments.  Its observable behaviour is the
  list of lines it prints (its side-effect trace) together with either a
  normal result or a raised exception (`Except PyErr`).
* For the timing decorator the callable additionally threads a wall-clock
  timestamp (a natural number): `run args kwargs t` returns the clock value
  when the callable finishes, its output trace, and its result.  `time.time()`
  simply reads the current clock value.
* A generator is embedded as the list of values it yields.
-/

/-- Exceptions raised by the modelled code.  `valueError` mirrors Python's
`ValueError`, carrying its message string. -/
inductive PyErr where
  | valueError (msg : String)
  | other (name : String)
deriving DecidableEq, Repr

/-- The message of the `ValueError` raised by `validate_inputs`'s wrapper:
`f"Argument at index {i} does not satisfy the rule."` -/
def errMsg (i : Nat) : String :=
  "Argument at index " ++ toString i ++ " does not satisfy the rule."

/-- The validation loop of `validate_inputs`'s wrapper:
`for i, (arg, rule) in enumerate(zip(args, validation_rules))`, returning the
index of the first argument whose rule rejects it (`None` when the loop
completes).  `zip` stops at the shorter of the two lists, and `i` is the
running `enumerate` counter. -/
def checkArgs {α : Type} : Nat → List α → List (α → Bool) → Option Nat
  | _, [], _ => none
  | _, _ :: _, [] => none
  | i, a :: as, r :: rs => if r a then checkArgs (i + 1) as rs else some i

/-- The wrapper produced by `validate_inputs(*validation_rules)` applied to
`func`: run the validation loop over the positional arguments; on the first
failure raise `ValueError` with the failing index in the message (the target
is not called and nothing is printed); otherwise tail-call
`func(*args, **kwargs)`. -/
def validate_wrapper {α ρ : Type} (validation_rules : List (α → Bool))
    (func : List α → List (String × α) → List String × Except PyErr ρ)
    (args : List α) (kwargs : List (String × α)) :
    List String × Except PyErr ρ :=
  match checkArgs 0 args validation_rules with
  | some i => ([], Except.error (PyErr.valueError (errMsg i)))
  | none => func args kwargs

/-- A callable as seen by the timing decorator: it has a `__name__` and a
clock-threading run function (see the module comment). -/
structure PyFun (α ρ : Type) where
  name : String
  run : List α → List (String × α) → Nat → Nat × List String × Except PyErr ρ

/-- `end_time - start_time`, as an integer so that negativity is expressible. -/
def elapsed (start_time end_time : Nat) : Int :=
  (end_time : Int) - (start_time : Int)

/-- The line printed by `timeit`'s wrapper:
`f"{func.__name__} executed in {end_time - start_time} seconds."` -/
def timingReport (name : String) (start_time end_time : Nat) : String :=
  name ++ " executed in " ++ toString (elapsed start_time end_time) ++ " seconds."

/-- The wrapper produced by `timeit(func)`: read the clock, call
`func(*args, **kwargs)`, read the clock again, print the timing line and
return `func`'s result.  If `func` raises, the exception propagates before
the second clock read, so no timing line is printed. -/
def timeit_wrapper {α ρ : Type} (func : PyFun α ρ) (args : List α)
    (kwargs : List (String × α)) (t0 : Nat) :
    Nat × List String × Except PyErr ρ :=
  match func.run args kwargs t0 with
  | (t1, out, Except.ok result) =>
      (t1, out ++ [timingReport func.name t0 t1], Except.ok result)
  | (t1, out, Except.error e) => (t1, out, Except.error e)

/-- The loop of `fibon_generator(n)`, as the list of yielded values:
`a = b = 1; for i in range(n): yield a; a, b = b, a + b`. -/
def fibonGenLoop : Nat → Nat → Nat → List Nat
  | 0, _, _ => []
  | n + 1, a, b => a :: fibonGenLoop n b (a + b)

/-- `fibon_generator(n)` from `03_generators/main.py`, embedded as the list of
values it yields. -/
def fibon_generator (n : Nat) : List Nat :=
  fibonGenLoop n 1 1

/-- The loop of `fibon_normal(n)`:
`for i in range(n): result.append(a); a, b = b, a + b`. -/
def fibonNormalLoop : Nat → Nat → Nat → List Nat → List Nat
  | 0, _, _, result => result
  | n + 1, a, b, result => fibonNormalLoop n b (a + b) (result ++ [a])

/-- `fibon_normal(n)` from `03_generators/main.py`. -/
def fibon_normal (n : Nat) : List Nat :=
  fibonNormalLoop n 1 1 []

/-- The Fibonacci numbers starting `1, 1` (the mathematical specification both
implementations are compared against). -/
def fibSpec : Nat → Nat
  | 0 => 1
  | 1 => 1
  | n + 2 => fibSpec n + fibSpec (n + 1)

/-- Rule modelling `lambda x: isinstance(x, int)` on integer inputs. -/
def isInt : Int → Bool := fun _ => true

/-- Rule modelling `lambda x: x > 0`. -/
def isPositive : Int → Bool := fun x => decide (0 < x)

/-- A rule that rejects every input (used for concrete counterexamples). -/
def alwaysFalse : Int → Bool := fun _ => false

/-- A trivial side-effect-free target returning `0`. -/
def okTarget : List Int → List (String × Int) → List String × Except PyErr Int :=
  fun _ _ => ([], Except.ok 0)

/-- The `process_numbers` example target: prints one line and returns `None`
(modelled as `0`). -/
def process_numbers : List Int → List (String × Int) → List String × Except PyErr Int :=
  fun _ _ => (["Processing numbers"], Except.ok 0)

/-- The `long_running_task` example: blocks for 2 seconds (advances the clock
by 2), prints one line and returns `None` (modelled as `()`). -/
def long_running_task : PyFun Int Unit :=
  { name := "long_running_task"
    run := fun _ _ t => (t + 2, ["Task completed."], Except.ok ()) }

/-- A callable that prints one line and then raises (used as a concrete
failing target for the timing decorator). -/
def failingTask : PyFun Int Int :=
  { name := "failing_task"
    run := fun _ _ t => (t + 1, ["about to fail"], Except.error (PyErr.other "RuntimeError")) }

/-! ## Characterisation of the validation loop -/

theorem checkArgs_shift {α : Type} (args : List α) :
    ∀ (rules : List (α → Bool)) (k : Nat),
      checkArgs k args rules = Option.map (fun j => j + k) (checkArgs 0 args rules) := by
  induction args with
  | nil => intro rules k; cases rules <;> simp [checkArgs]
  | cons a as ih =>
    intro rules k
    cases rules with
    | nil => simp [checkArgs]
    | cons r rs =>
      cases hr : r a with
      | false => simp [checkArgs, hr]
      | true =>
        simp only [checkArgs, hr, if_true]
        rw [ih rs (k + 1), ih rs 1]
        cases checkArgs 0 as rs <;> simp [Nat.add_comm, Nat.add_assoc, Nat.add_left_comm]

theorem checkArgs_none_iff {α : Type} (args : List α) (rules : List (α → Bool)) :
    checkArgs 0 args rules = none ↔
      ∀ (i : Nat) (h1 : i < args.length) (h2 : i < rules.length),
        rules[i] args[i] = true := by
  induction args generalizing rules with
  | nil => cases rules <;> simp [checkArgs]
  | cons a as ih =>
    cases rules with
    | nil => simp [checkArgs]
    | cons r rs =>
      cases hr : r a with
      | false =>
        simp only [checkArgs, hr, if_false]
        constructor
        · intro h; exact absurd h (by simp)
        · intro h
          have h0 := h 0 (by simp) (by simp)
          simp [hr] at h0
      | true =>
        simp only [checkArgs, hr, if_true]
        rw [checkArgs_shift as rs 1]
        constructor
        · intro h i h1 h2
          have hnone : checkArgs 0 as rs = none := by
            cases h0 : checkArgs 0 as rs with
            | none => rfl
            | some m => rw [h0] at h; simp at h
          have hall := (ih rs).mp hnone
          match i with
          | 0 => simpa using hr
          | Nat.succ n =>
            have hn1 : n < as.length := by simpa using Nat.lt_of_succ_lt_succ h1
            have hn2 : n < rs.length := by simpa using Nat.lt_of_succ_lt_succ h2
            simpa using hall n hn1 hn2
        · intro h
          have hnone : checkArgs 0 as rs = none := by
            refine (ih rs).mpr ?_
            intro n h1 h2
            have := h (n + 1) (by simpa using Nat.succ_lt_succ h1)
              (by simpa using Nat.succ_lt_succ h2)
            simpa using this
          rw [hnone]
          rfl

theorem checkArgs_some_iff {α : Type} (args : List α) (rules : List (α → Bool)) (j : Nat) :
    checkArgs 0 args rules = some j ↔
      (∃ (h1 : j < args.length) (h2 : j < rules.length), rules[j] args[j] = false) ∧
      ∀ (k : Nat) (h1 : k < args.length) (h2 : k < rules.length),
        k < j → rules[k] args[k] = true := by
  induction args generalizing rules j with
  | nil => cases rules <;> simp [checkArgs]
  | cons a as ih =>
    cases rules with
    | nil => simp [checkArgs]
    | cons r rs =>
      cases hr : r a with
      | false =>
        simp only [checkArgs, hr, if_false]
        constructor
        · intro h
          have hj : j = 0 := by
            have := Option.some.inj h
            omega
          subst hj
          refine ⟨⟨by simp, by simp, by simpa using hr⟩, ?_⟩
          intro k _ _ hk; omega
        · rintro ⟨⟨h1, h2, hf⟩, hmin⟩
          cases j with
          | zero => rfl
          | succ m =>
            have h0 := hmin 0 (by simp) (by simp) (by omega)
            simp [hr] at h0
      | true =>
        simp only [checkArgs, hr, if_true]
        rw [checkArgs_shift as rs 1]
        constructor
        · intro h
          cases h0 : checkArgs 0 as rs with
          | none => rw [h0] at h; simp at h
          | some m =>
            rw [h0] at h
            simp at h
            have hj : j = m + 1 := by omega
            subst hj
            rcases (ih rs m).mp h0 with ⟨⟨hm1, hm2, hf⟩, hmin⟩
            refine ⟨⟨by simpa using Nat.succ_lt_succ hm1,
                     by simpa using Nat.succ_lt_succ hm2, by simpa using hf⟩, ?_⟩
            intro k h1 h2 hk
            match k with
            | 0 => simpa using hr
            | Nat.succ n =>
              have hn1 : n < as.length := by simpa using Nat.lt_of_succ_lt_succ h1
              have hn2 : n < rs.length := by simpa using Nat.lt_of_succ_lt_succ h2
              simpa using hmin n hn1 hn2 (by omega)
        · rintro ⟨⟨h1, h2, hf⟩, hmin⟩
          cases j with
          | zero => simp [hr] at hf
          | succ m =>
            have hm1 : m < as.length := by simpa using Nat.lt_of_succ_lt_succ h1
            have hm2 : m < rs.length := by simpa using Nat.lt_of_succ_lt_succ h2
            have : checkArgs 0 as rs = some m := by
              refine (ih rs m).mpr ⟨⟨hm1, hm2, by simpa using hf⟩, ?_⟩
              intro k hk1 hk2 hkm
              have := hmin (k + 1) (by simpa using Nat.succ_lt_succ hk1)
                (by simpa using Nat.succ_lt_succ hk2) (by omega)
              simpa using this
            rw [this]; simp

/-! ## Fibonacci: generator versus eager list -/

theorem fibonNormalLoop_eq (n : Nat) :
    ∀ (a b : Nat) (acc : List Nat),
      fibonNormalLoop n a b acc = acc ++ fibonGenLoop n a b := by
  induction n with
  | zero => intro a b acc; simp [fibonNormalLoop, fibonGenLoop]
  | succ n ih =>
    intro a b acc
    rw [fibonNormalLoop, fibonGenLoop, ih]
    simp

theorem fibonGenLoop_closed :
    ∀ (n k : Nat),
      fibonGenLoop n (fibSpec k) (fibSpec (k + 1)) =
        (List.range n).map (fun i => fibSpec (k + i)) := by
  intro n
  induction n with
  | zero => intro k; simp [fibonGenLoop]
  | succ n ih =>
    intro k
    have hsum : fibSpec k + fibSpec (k + 1) = fibSpec (k + 2) := rfl
    rw [fibonGenLoop, hsum, ih (k + 1), List.range_succ_eq_map]
    simp only [List.map_cons, List.map_map, Nat.add_zero]
    congr 1
    refine List.map_congr_left ?_
    intro i _
    simp only [Function.comp_apply]
    congr 1
    omega

theorem checkArgs_take_args {α : Type} :
    ∀ (args : List α) (rules : List (α → Bool)) (k : Nat),
      checkArgs k (args.take rules.length) rules = checkArgs k args rules := by
  intro args
  induction args with
  | nil => intro rules k; simp
  | cons a as ih =>
    intro rules k
    cases rules with
    | nil => simp [checkArgs]
    | cons r rs =>
      simp only [List.length_cons, List.take_succ_cons, checkArgs]
      rw [ih rs (k + 1)]

theorem checkArgs_take_rules {α : Type} :
    ∀ (args : List α) (rules : List (α → Bool)) (k : Nat),
      checkArgs k args (rules.take args.length) = checkArgs k args rules := by
  intro args
  induction args with
  | nil => intro rules k; cases rules <;> rfl
  | cons a as ih =>
    intro rules k
    cases rules with
    | nil => rfl
    | cons r rs =>
      simp only [List.length_cons, List.take_succ_cons, checkArgs]
      rw [ih rs (k + 1)]

theorem checkArgs_prefix_stable {α : Type} (args : List α) (rules : List (α → Bool))
    (m : Nat) (h : checkArgs 0 args rules = some m) (tail : List (α → Bool)) :
    checkArgs 0 args (rules.take (m + 1) ++ tail) = some m := by
  rcases (checkArgs_some_iff args rules m).mp h with ⟨⟨hm1, hm2, hmf⟩, hmin⟩
  have hlen : m < (rules.take (m + 1) ++ tail).length := by
    simp only [List.length_append, List.length_take]
    omega
  have hget : ∀ (k : Nat) (hk1 : k < m + 1) (hk2 : k < rules.length)
      (hk : k < (rules.take (m + 1) ++ tail).length),
        (rules.take (m + 1) ++ tail)[k] = rules[k] := by
    intro k hk1 hk2 hk
    have hkt : k < (rules.take (m + 1)).length := by
      simp only [List.length_take]
      omega
    rw [List.getElem_append_left hkt, List.getElem_take]
  refine (checkArgs_some_iff args (rules.take (m + 1) ++ tail) m).mpr
    ⟨⟨hm1, hlen, ?_⟩, ?_⟩
  · rw [hget m (by omega) hm2 hlen]
    exact hmf
  · intro k hk1 hk2 hkm
    rw [hget k (by omega) (by omega) hk2]
    exact hmin k hk1 (by omega) hkm

/-! ## Claims about the Fibonacci implementations -/

/-- Claim C10: for every natural number `n`, the sequence of values yielded by
`fibon_generator(n)` equals the list returned by `fibon_normal(n)`, and both
are exactly the first `n` Fibonacci numbers starting `1, 1`. -/
theorem fibon_generator_eq_fibon_normal (n : Nat) :
    fibon_generator n = fibon_normal n ∧
    fibon_generator n = (List.range n).map fibSpec := by
  constructor
  · rw [fibon_generator, fibon_normal, fibonNormalLoop_eq]
    simp
  · have h := fibonGenLoop_closed n 0
    simpa [fibon_generator, fibSpec, Nat.zero_add] using h

/-! ## Claims about the timing decorator -/

/-- Claim C3: if the wrapped callable raises, the `timeit` wrapper propagates
exactly the same exception and emits no timing line — its output is the
target's own output, untouched. -/
theorem timeit_propagates_failure {α ρ : Type} (f : PyFun α ρ) (args : List α)
    (kwargs : List (String × α)) (t0 t1 : Nat) (out : List String) (e : PyErr)
    (h : f.run args kwargs t0 = (t1, out, Except.error e)) :
    timeit_wrapper f args kwargs t0 = (t1, out, Except.error e) := by
  simp [timeit_wrapper, h]

/-- Witness for C3 at a concrete raising callable. -/
theorem timeit_propagates_failure_witness :
    timeit_wrapper failingTask [] [] 0 =
      (1, ["about to fail"], Except.error (PyErr.other "RuntimeError")) :=
  timeit_propagates_failure failingTask [] [] 0 1 ["about to fail"]
    (PyErr.other "RuntimeError") rfl

/-- Claim C4: on a normal return the `timeit` wrapper returns exactly the
target's result; its only addition is the timing line appended to the
target's output. -/
theorem timeit_pass_through {α ρ : Type} (f : PyFun α ρ) (args : List α)
    (kwargs : List (String × α)) (t0 t1 : Nat) (out : List String) (r : ρ)
    (h : f.run args kwargs t0 = (t1, out, Except.ok r)) :
    timeit_wrapper f args kwargs t0 =
      (t1, out ++ [timingReport f.name t0 t1], Except.ok r) := by
  simp [timeit_wrapper, h]

/-- Witness for C4 at the `long_running_task` example. -/
theorem timeit_pass_through_witness :
    timeit_wrapper long_running_task [] [] 0 =
      (2, ["Task completed."] ++ [timingReport "long_running_task" 0 2],
        Except.ok ()) :=
  timeit_pass_through long_running_task [] [] 0 2 ["Task completed."] () rfl

/-- Claim C8: for a successful call whose clock does not run backwards,
the wrapper reports `elapsed t0 t1`, which is non-negative, and a target
that keeps the clock busy for at least `D` yields a reported duration of at
least `D`. -/
theorem timeit_duration_lower_bound {α ρ : Type} (f : PyFun α ρ) (args : List α)
    (kwargs : List (String × α)) (t0 t1 : Nat) (out : List String) (r : ρ)
    (h : f.run args kwargs t0 = (t1, out, Except.ok r)) (hmono : t0 ≤ t1) :
    (timeit_wrapper f args kwargs t0).2.1 = out ++ [timingReport f.name t0 t1] ∧
    0 ≤ elapsed t0 t1 ∧
    ∀ D : Nat, t0 + D ≤ t1 → (D : Int) ≤ elapsed t0 t1 := by
  refine ⟨by simp [timeit_wrapper, h], ?_, ?_⟩
  · simp only [elapsed]
    omega
  · intro D hD
    simp only [elapsed]
    omega

/-- Witness for C8 at `long_running_task`, which blocks for `D = 2`. -/
theorem timeit_duration_lower_bound_witness :
    (timeit_wrapper long_running_task [] [] 0).2.1 =
      ["Task completed."] ++ [timingReport "long_running_task" 0 2] ∧
    0 ≤ elapsed 0 2 ∧
    ∀ D : Nat, 0 + D ≤ 2 → (D : Int) ≤ elapsed 0 2 :=
  timeit_duration_lower_bound long_running_task [] [] 0 2 ["Task completed."] ()
    rfl (by decide)

/-! ## Claims about the validating decorator -/

/-- Claim C2: when every rule paired with a positional argument accepts it,
the validating wrapper invokes the target with all original arguments,
positional and keyword, and returns its result unchanged. -/
theorem validate_pass_through {α ρ : Type} (rules : List (α → Bool))
    (func : List α → List (String × α) → List String × Except PyErr ρ)
    (args : List α) (kwargs : List (String × α))
    (h : ∀ (i : Nat) (h1 : i < args.length) (h2 : i < rules.length),
      rules[i] args[i] = true) :
    validate_wrapper rules func args kwargs = func args kwargs := by
  simp [validate_wrapper, (checkArgs_none_iff args rules).mpr h]

/-- Witness for C2 at the `process_numbers(10, 5)` scenario: both rules
pass, so the target is invoked. -/
theorem validate_pass_through_witness :
    validate_wrapper [isInt, isPositive] process_numbers [10, 5] [] =
      process_numbers [10, 5] [] :=
  validate_pass_through [isInt, isPositive] process_numbers [10, 5] [] (by decide)

/-- Claim C5: arguments past the rule count are not validated — the check
result only depends on the first `rules.length` arguments — and on success
the target still receives all of them; rules past the argument count are
never evaluated — the check result only depends on the first `args.length`
rules — and a failing index always lies within both lists, so an excess rule
can never cause a failure. -/
theorem validate_excess_policy {α ρ : Type} (rules : List (α → Bool))
    (func : List α → List (String × α) → List String × Except PyErr ρ)
    (args : List α) (kwargs : List (String × α)) :
    checkArgs 0 args rules = checkArgs 0 (args.take rules.length) rules ∧
    checkArgs 0 args rules = checkArgs 0 args (rules.take args.length) ∧
    (∀ j, checkArgs 0 args rules = some j → j < args.length ∧ j < rules.length) ∧
    (checkArgs 0 args rules = none →
      validate_wrapper rules func args kwargs = func args kwargs) := by
  refine ⟨(checkArgs_take_args args rules 0).symm,
    (checkArgs_take_rules args rules 0).symm, ?_, ?_⟩
  · intro j hj
    rcases (checkArgs_some_iff args rules j).mp hj with ⟨⟨h1, h2, _⟩, _⟩
    exact ⟨h1, h2⟩
  · intro hnone
    simp [validate_wrapper, hnone]

/-- Witness for C5: three arguments against a single rule — the excess
arguments `5` and `99` are passed through unvalidated. -/
theorem validate_excess_policy_witness :
    checkArgs 0 ([10, 5, 99] : List Int) [isPositive] = none ∧
    validate_wrapper [isPositive] okTarget [10, 5, 99] [] =
      okTarget [10, 5, 99] [] :=
  ⟨rfl, (validate_excess_policy [isPositive] okTarget [10, 5, 99] []).2.2.2 rfl⟩

/-- Claim C6: keyword arguments are never validated — a validation failure
is the same whatever the keyword arguments are — and on success the keyword
arguments are forwarded to the target unchanged. -/
theorem validate_kwargs_unvalidated {α ρ : Type} (rules : List (α → Bool))
    (func : List α → List (String × α) → List String × Except PyErr ρ)
    (args : List α) (kwargs kwargs' : List (String × α)) :
    (∀ i, checkArgs 0 args rules = some i →
      validate_wrapper rules func args kwargs =
        ([], Except.error (PyErr.valueError (errMsg i))) ∧
      validate_wrapper rules func args kwargs' =
        ([], Except.error (PyErr.valueError (errMsg i)))) ∧
    (checkArgs 0 args rules = none →
      validate_wrapper rules func args kwargs = func args kwargs) := by
  constructor
  · intro i hi
    constructor <;> simp [validate_wrapper, hi]
  · intro h
    simp [validate_wrapper, h]

/-- Witness for C6: the keyword argument `("flag", 1)` neither causes nor
prevents the validation failure of the positional argument `-5`. -/
theorem validate_kwargs_unvalidated_witness :
    checkArgs 0 ([-5] : List Int) [isPositive] = some 0 ∧
    validate_wrapper [isPositive] okTarget [-5] [("flag", 1)] =
      ([], Except.error (PyErr.valueError (errMsg 0))) :=
  ⟨by decide,
   ((validate_kwargs_unvalidated [isPositive] okTarget [-5] [("flag", 1)] []).1 0
     (by decide)).1⟩

/-- Claim C7: neither interceptor mutates the call: when validation passes
the validating wrapper applies the target to exactly the caller's positional
and keyword arguments and returns its result as is, and the `timeit` wrapper
hands back exactly the result its target produced on those arguments. -/
theorem interceptors_preserve_call {α ρ σ : Type} (rules : List (α → Bool))
    (func : List α → List (String × α) → List String × Except PyErr ρ)
    (args : List α) (kwargs : List (String × α)) (f : PyFun α σ) (t0 : Nat) :
    (checkArgs 0 args rules = none →
      validate_wrapper rules func args kwargs = func args kwargs) ∧
    (timeit_wrapper f args kwargs t0).2.2 = (f.run args kwargs t0).2.2 := by
  constructor
  · intro h
    simp [validate_wrapper, h]
  · rcases h : f.run args kwargs t0 with ⟨t1, out, res⟩
    cases res <;> simp [timeit_wrapper, h]

/-- Witness for C7 at `process_numbers(10, 5)` and `long_running_task()`. -/
theorem interceptors_preserve_call_witness :
    checkArgs 0 ([10, 5] : List Int) [isInt, isPositive] = none ∧
    validate_wrapper [isInt, isPositive] process_numbers [10, 5] [] =
      process_numbers [10, 5] [] ∧
    (timeit_wrapper long_running_task [] [] 0).2.2 =
      (long_running_task.run [] [] 0).2.2 :=
  ⟨rfl,
   (interceptors_preserve_call [isInt, isPositive] process_numbers [10, 5] []
     long_running_task 0).1 rfl,
   (interceptors_preserve_call [isInt, isPositive] process_numbers [10, 5] []
     long_running_task 0).2⟩

/-- Claim C1 fails as literally stated: with two always-rejecting rules, the
argument at index 1 fails its paired rule at index 1, yet the raised
`ValueError` carries the message for index 0 (the loop stops at the first
failure), and that message is not the one identifying index 1. -/
theorem validate_identifies_index_counterexample :
    ([alwaysFalse, alwaysFalse] : List (Int → Bool))[1] (([0, 0] : List Int)[1]) = false ∧
    validate_wrapper [alwaysFalse, alwaysFalse] okTarget [0, 0] [] =
      ([], Except.error (PyErr.valueError (errMsg 0))) ∧
    errMsg 0 ≠ errMsg 1 := by
  refine ⟨rfl, rfl, ?_⟩
  decide

/-- Claim C1 (amended): if the positional argument at index `i` fails its
paired rule, the call raises `ValueError` identifying the smallest failing
index `j` (so `j ≤ i`, and `j = i` whenever `i` is the first failure), the
wrapper prints nothing, and the target is never invoked: the outcome is the
same whatever the target is. -/
theorem validate_rejects_without_calling_target {α ρ : Type}
    (rules : List (α → Bool)) (args : List α) (kwargs : List (String × α))
    (i : Nat) (h1 : i < args.length) (h2 : i < rules.length)
    (hf : rules[i] args[i] = false) :
    ∃ j, j ≤ i ∧ checkArgs 0 args rules = some j ∧
      (∃ (hj1 : j < args.length) (hj2 : j < rules.length),
        rules[j] args[j] = false) ∧
      ∀ (func : List α → List (String × α) → List String × Except PyErr ρ),
        validate_wrapper rules func args kwargs =
          ([], Except.error (PyErr.valueError (errMsg j))) := by
  cases hj : checkArgs 0 args rules with
  | none =>
    have := (checkArgs_none_iff args rules).mp hj i h1 h2
    rw [hf] at this
    exact absurd this (by simp)
  | some j =>
    rcases (checkArgs_some_iff args rules j).mp hj with ⟨⟨hj1, hj2, hjf⟩, hmin⟩
    refine ⟨j, ?_, rfl, ⟨hj1, hj2, hjf⟩, ?_⟩
    · by_contra hij
      push_neg at hij
      have := hmin i h1 h2 hij
      rw [hf] at this
      exact absurd this (by simp)
    · intro func
      simp [validate_wrapper, hj]

/-- Witness for amended C1 at the `process_numbers(10, -5)` scenario: the
argument at index 1 fails `isPositive`, so the call raises the `ValueError`
for index 1 and the target is never invoked. -/
theorem validate_rejects_without_calling_target_witness :
    ∃ j, j ≤ 1 ∧ checkArgs 0 ([10, -5] : List Int) [isInt, isPositive] = some j ∧
      (∃ (hj1 : j < ([10, -5] : List Int).length)
         (hj2 : j < ([isInt, isPositive] : List (Int → Bool)).length),
        ([isInt, isPositive] : List (Int → Bool))[j] (([10, -5] : List Int)[j]) = false) ∧
      ∀ (func : List Int → List (String × Int) → List String × Except PyErr Int),
        validate_wrapper [isInt, isPositive] func [10, -5] [] =
          ([], Except.error (PyErr.valueError (errMsg j))) :=
  validate_rejects_without_calling_target [isInt, isPositive] [10, -5] [] 1
    (by decide) (by decide) (by decide)

/-- Claim C9: when more than one positional argument fails its paired rule,
the raised error identifies the smallest failing index `m`: `m` fails its
rule, every failing paired index is at least `m`, the same error is raised
for every target (the target is never invoked), and the rules past index `m`
are never evaluated — replacing them by an arbitrary list leaves the outcome
unchanged. -/
theorem validate_first_failure_wins {α ρ : Type} (rules : List (α → Bool))
    (args : List α) (kwargs : List (String × α)) (i j : Nat)
    (hi1 : i < args.length) (hi2 : i < rules.length)
    (hj1 : j < args.length) (hj2 : j < rules.length) (hij : i ≠ j)
    (hfi : rules[i] args[i] = false) (hfj : rules[j] args[j] = false) :
    ∃ m, checkArgs 0 args rules = some m ∧
      (∃ (hm1 : m < args.length) (hm2 : m < rules.length),
        rules[m] args[m] = false) ∧
      (∀ (k : Nat) (hk1 : k < args.length) (hk2 : k < rules.length),
        rules[k] args[k] = false → m ≤ k) ∧
      (∀ (func : List α → List (String × α) → List String × Except PyErr ρ),
        validate_wrapper rules func args kwargs =
          ([], Except.error (PyErr.valueError (errMsg m)))) ∧
      ∀ (tail : List (α → Bool))
        (func : List α → List (String × α) → List String × Except PyErr ρ),
        validate_wrapper (rules.take (m + 1) ++ tail) func args kwargs =
          ([], Except.error (PyErr.valueError (errMsg m))) := by
  cases hm : checkArgs 0 args rules with
  | none =>
    have := (checkArgs_none_iff args rules).mp hm i hi1 hi2
    rw [hfi] at this
    exact absurd this (by simp)
  | some m =>
    rcases (checkArgs_some_iff args rules m).mp hm with ⟨⟨hm1, hm2, hmf⟩, hmin⟩
    refine ⟨m, rfl, ⟨hm1, hm2, hmf⟩, ?_, ?_, ?_⟩
    · intro k hk1 hk2 hkf
      by_contra hmk
      push_neg at hmk
      have := hmin k hk1 hk2 hmk
      rw [hkf] at this
      exact absurd this (by simp)
    · intro func
      simp [validate_wrapper, hm]
    · intro tail func
      simp [validate_wrapper, checkArgs_prefix_stable args rules m hm tail]

/-- Witness for C9: both arguments fail their (always-rejecting) rules, and
the error identifies index 0, the smaller of the two. -/
theorem validate_first_failure_wins_witness :
    ∃ m, checkArgs 0 ([0, 0] : List Int) [alwaysFalse, alwaysFalse] = some m ∧
      (∃ (hm1 : m < ([0, 0] : List Int).length)
         (hm2 : m < ([alwaysFalse, alwaysFalse] : List (Int → Bool)).length),
        ([alwaysFalse, alwaysFalse] : List (Int → Bool))[m]
          (([0, 0] : List Int)[m]) = false) ∧
      (∀ (k : Nat) (hk1 : k < ([0, 0] : List Int).length)
         (hk2 : k < ([alwaysFalse, alwaysFalse] : List (Int → Bool)).length),
        ([alwaysFalse, alwaysFalse] : List (Int → Bool))[k]
          (([0, 0] : List Int)[k]) = false → m ≤ k) ∧
      (∀ (func : List Int → List (String × Int) → List String × Except PyErr Int),
        validate_wrapper [alwaysFalse, alwaysFalse] func [0, 0] [] =
          ([], Except.error (PyErr.valueError (errMsg m)))) ∧
      ∀ (tail : List (Int → Bool))
        (func : List Int → List (String × Int) → List String × Except PyErr Int),
        validate_wrapper (([alwaysFalse, alwaysFalse] : List (Int → Bool)).take (m + 1) ++ tail)
            func [0, 0] [] =
          ([], Except.error (PyErr.valueError (errMsg m))) :=
  validate_first_failure_wins [alwaysFalse, alwaysFalse] [0, 0] [] 0 1
    (by decide) (by decide) (by decide) (by decide) (by decide) rfl rfl
